import Mathlib

/-!
Shallow embedding of the brew-signal analytical core (backend/app) in Lean 4,
with theorems settling the frozen claims about its specification.

Conventions of the embedding:
* Python floats are modelled as exact rationals (`ℚ`); `round(x, k)` is
  modelled as decimal round-half-to-even (`roundTo`), `int(x)` as truncation
  toward zero (`pyTrunc`).
* Monotonic-clock readings are passed explicitly as rational time stamps.
* Database rows and dictionaries are modelled as lists and association lists.
-/

/-- Python `max(lo, min(hi, val))` — the `_clamp` helper used across services. -/
def pyClamp (lo hi x : ℚ) : ℚ := max lo (min hi x)

/-- `statistics.mean` on a list of rationals (callers guard non-emptiness). -/
def statMean (l : List ℚ) : ℚ := l.sum / (l.length : ℚ)

/-- Python slice `l[-n:]`: the last `n` elements (all of `l` if shorter). -/
def lastN (n : ℕ) (l : List ℚ) : List ℚ := l.drop (l.length - n)

/-- Round-half-to-even on rationals, the semantics of Python `round`. -/
def roundHalfEven (x : ℚ) : ℤ :=
  let f := ⌊x⌋
  let r := x - (f : ℚ)
  if r < 1/2 then f
  else if 1/2 < r then f + 1
  else if f % 2 = 0 then f else f + 1

/-- Python `round(x, n)` on exact rationals. -/
def roundTo (n : ℕ) (x : ℚ) : ℚ := (roundHalfEven (x * 10 ^ n) : ℚ) / 10 ^ n

/-- Python `int(x)`: truncation toward zero. -/
def pyTrunc (x : ℚ) : ℤ := if 0 ≤ x then ⌊x⌋ else -⌊-x⌋

/-! ## Configuration defaults (backend/app/config.py) -/

def signal_wow_growth_threshold : ℚ := 3/10
def signal_breakout_percentile : ℚ := 85
def signal_lead_time_weeks : ℤ := 12

def bd_weight_timing : ℚ := 35/100
def bd_weight_demand : ℚ := 30/100
def bd_weight_market_gap : ℚ := 20/100
def bd_weight_feasibility : ℚ := 15/100
def bd_fit_gate_threshold : ℚ := 30
def bd_start_threshold : ℚ := 70
def bd_monitor_threshold : ℚ := 40
def bd_gatekeeper_urgency_factor : ℚ := 3/10

def confidence_indicator_weight : ℚ := 6/10
def confidence_source_weight : ℚ := 4/10
def confidence_key_source_down_penalty : ℚ := 20
def confidence_key_source_warn_penalty : ℚ := 10
def confidence_key_indicator_missing_penalty : ℚ := 10
def confidence_key_indicator_penalty_cap : ℚ := 30

/-! ## services/signal_service.py -/

/-- First green condition: `wow_growth is not None and wow_growth > wow_thresh`. -/
def wowAboveThresh (wow_growth : Option ℚ) : Bool :=
  match wow_growth with
  | some w => decide (signal_wow_growth_threshold < w)
  | none => false

/-- Third green condition: `breakout_pct is not None and breakout_pct >= bp_thresh`. -/
def bpAboveThresh (breakout_pct : Option ℚ) : Bool :=
  match breakout_pct with
  | some b => decide (signal_breakout_percentile ≤ b)
  | none => false

/-- The red condition: `ma7 < ma28 and wow_growth < 0`, all non-null. -/
def decliningCond (ma7 ma28 wow_growth : Option ℚ) : Bool :=
  match ma7, ma28, wow_growth with
  | some a, some b, some w => decide (a < b) && decide (w < 0)
  | _, _, _ => false

/-- `compute_signal_light`: rule-based traffic light (strings as in the code). -/
def compute_signal_light (wow_growth : Option ℚ) (acceleration : Option Bool)
    (breakout_pct : Option ℚ) (ma7 ma28 : Option ℚ) : String :=
  let greenConditions : List Bool :=
    [wowAboveThresh wow_growth,
     decide (acceleration = some true),
     bpAboveThresh breakout_pct]
  if greenConditions.all (fun b => b) then "green"
  else if decliningCond ma7 ma28 wow_growth then "red"
  else "yellow"

/-- The WoW-growth block of `compute_aggregation` (signal_service.py:64-70):
`mean(values[-7:]) / mean(values[-14:-7]) - 1`, `0.0` when the prior mean is
not positive, `None` below 14 values. -/
def wowCalc (values : List ℚ) : Option ℚ :=
  if 14 ≤ values.length then
    some (if 0 < statMean ((lastN 14 values).take 7) then
            statMean (lastN 7 values) / statMean ((lastN 14 values).take 7) - 1
          else 0)
  else none

/-- The acceleration block of `compute_aggregation` (signal_service.py:72-75). -/
def accelCalc (wow prevWow : Option ℚ) : Bool :=
  match wow, prevWow with
  | some w, some p => decide (0 < w) && decide (0 < p) && decide (p < w)
  | _, _ => false

/-- The breakout-percentile block of `compute_aggregation`
(signal_service.py:77-83): the `≤`-rank of the current 7-day average within
`all_values_6m`, scaled to a percentage. -/
def breakoutCalc (values allValues6m : List ℚ) : Option ℚ :=
  if 7 ≤ allValues6m.length then
    some (((allValues6m.filter (fun v => v ≤ statMean (lastN 7 values))).length : ℚ)
            / (allValues6m.length : ℚ) * 100)
  else none

/-- The dictionary returned by `compute_aggregation` (empty when `len < 7`). -/
structure AggResult where
  ma7 : Option ℚ
  ma28 : Option ℚ
  wow_growth : Option ℚ
  acceleration : Option Bool
  breakout_percentile : Option ℚ
  signal_light : Option String
deriving DecidableEq

def emptyAgg : AggResult := ⟨none, none, none, none, none, none⟩

/-- `compute_aggregation(values, all_values_6m, prev_wow)`. The returned
fields carry the code's `round(·, k)` decimal rounding; the signal light is
computed from the unrounded quantities, as in the source. -/
def compute_aggregation (values allValues6m : List ℚ) (prevWow : Option ℚ) : AggResult :=
  if values.length < 7 then emptyAgg
  else
    let ma7 := statMean (lastN 7 values)
    let ma28 := if 28 ≤ values.length then some (statMean (lastN 28 values)) else none
    let wow := wowCalc values
    let accel := accelCalc wow prevWow
    let breakout := breakoutCalc values allValues6m
    let light := compute_signal_light wow (some accel) breakout (some ma7) ma28
    { ma7 := some (roundTo 2 ma7)
      ma28 := ma28.map (roundTo 2)
      wow_growth := wow.map (roundTo 4)
      acceleration := some accel
      breakout_percentile := breakout.map (roundTo 1)
      signal_light := some light }

/-! ## services/trend_service.py -/

/-- A stored `DailyTrend` row as written by `_compute_daily_aggregation`
(the date is represented by its index in the sorted composite series). -/
structure DailyRow where
  idx : ℕ
  composite_value : ℚ
  ma7 : Option ℚ
  ma28 : Option ℚ
  wow_growth : Option ℚ
  acceleration : Option Bool
  breakout_percentile : Option ℚ
  signal_light : Option String
deriving DecidableEq

/-- The per-date loop of `_compute_daily_aggregation` (trend_service.py:191-224):
for each processed index, compute the aggregation of the series up to that
date against the fixed `values_6m` window, threading `prev_wow`. -/
def aggLoop (series values6m : List ℚ) : List ℕ → Option ℚ → List DailyRow
  | [], _ => []
  | idx :: rest, prevWow =>
    let agg := compute_aggregation (series.take (idx + 1)) values6m prevWow
    let prevWow' := match agg.wow_growth with
      | some w => some w
      | none => prevWow
    { idx := idx
      composite_value := roundTo 2 (series.getD idx 0)
      ma7 := agg.ma7
      ma28 := agg.ma28
      wow_growth := agg.wow_growth
      acceleration := agg.acceleration
      breakout_percentile := agg.breakout_percentile
      signal_light := agg.signal_light } :: aggLoop series values6m rest prevWow'

/-- `_compute_daily_aggregation` from the composite series onward
(trend_service.py:181-224): `values_6m` is the last up-to-180 values of the
whole series, and the last up-to-365 dates are processed with `prev_wow`
starting at `None`. -/
def dailyAggregationRows (series : List ℚ) : List DailyRow :=
  aggLoop series (lastN 180 series)
    (List.range' (series.length - min series.length 365) (min series.length 365)) none

/-- One alias fetch in `run_collection`, summarised as `some n` (success with
`n` points) or `none` (failure). -/
abbrev AliasFetch := Option ℕ

/-- The message families of `CollectRunResponse` (the code formats details
into the string; only the family is modelled). -/
inductive RunMsg
  | ipNotFound
  | noAliases
  | collected
  | somePointsSomeFailed
  | allAliasesFailed
deriving DecidableEq

/-- The final `(status, message)` logic of `run_collection`
(trend_service.py:41-51 and 109-114). -/
def run_collection_result (ipFound : Bool) (aliasResults : List AliasFetch) :
    String × RunMsg :=
  if ¬ ipFound then ("fail", .ipNotFound)
  else if aliasResults.isEmpty then ("fail", .noAliases)
  else
    let allSuccess := aliasResults.all (fun r => r.isSome)
    let totalPoints := (aliasResults.filterMap (fun r => r)).sum
    if allSuccess then ("success", .collected)
    else if 0 < totalPoints then ("success", .somePointsSomeFailed)
    else ("fail", .allAliasesFailed)

/-! ## collectors/rate_limiter.py — CircuitBreaker -/

/-- Mutable state of `CircuitBreaker` (times are monotonic-clock readings). -/
structure CBState where
  consecutive_failures : ℕ
  open_until : ℚ
deriving DecidableEq

/-- `CircuitBreaker.is_open` at clock reading `now`; returns the value and
the (possibly reset) state, since the property mutates the counter when the
cooldown has expired. -/
def cb_is_open (threshold : ℕ) (now : ℚ) (s : CBState) : Bool × CBState :=
  if threshold ≤ s.consecutive_failures then
    if now < s.open_until then (true, s)
    else (false, { s with consecutive_failures := 0 })
  else (false, s)

/-- `CircuitBreaker.record_success`. -/
def cb_record_success (s : CBState) : CBState :=
  { s with consecutive_failures := 0 }

/-- `CircuitBreaker.record_failure` at clock reading `now`. -/
def cb_record_failure (threshold : ℕ) (cooldown now : ℚ) (s : CBState) : CBState :=
  let f := s.consecutive_failures + 1
  if threshold ≤ f then { consecutive_failures := f, open_until := now + cooldown }
  else { s with consecutive_failures := f }

/-! ## collectors/pytrends_collector.py — fetch with retry -/

inductive ErrCode
  | auth
  | rate_limit
  | timeout
  | empty
  | network
  | unknown
deriving DecidableEq

/-- The outcome of one `_fetch_sync` call (oracle input to the model). -/
inductive AttemptOutcome
  | ok (points : ℕ)
  | err (e : ErrCode)
deriving DecidableEq

/-- Observable trace of the retry loop: HTTP attempts actually made, backoff
sleeps performed (in seconds), the result returned, and whether it succeeded. -/
structure LoopResult where
  attemptsMade : ℕ
  sleeps : List ℕ
  outcome : Option AttemptOutcome
  success : Bool
deriving DecidableEq

/-- The `for attempt in range(1, retries + 1)` loop of `PytrendsCollector.fetch`
(pytrends_collector.py:93-112), with `fuel` the number of remaining
iterations (`retries - attempt + 1` at entry). Auth errors break out of the
loop; other failures sleep `2 ** attempt` seconds if an attempt remains. -/
def fetchLoop (o : ℕ → AttemptOutcome) (retries : ℕ) : ℕ → ℕ → LoopResult
  | 0, _ => ⟨0, [], none, false⟩
  | fuel + 1, attempt =>
    match o attempt with
    | .ok p => ⟨1, [], some (.ok p), true⟩
    | .err e =>
      if e = .auth then ⟨1, [], some (.err e), false⟩
      else if attempt < retries then
        let rest := fetchLoop o retries fuel (attempt + 1)
        ⟨rest.attemptsMade + 1, 2 ^ attempt :: rest.sleeps,
         (match rest.outcome with
          | some x => some x
          | none => some (.err e)), rest.success⟩
      else ⟨1, [], some (.err e), false⟩

/-- Error code of the `CollectResult` returned by `fetch` on failure
(`last_result or CollectResult(..., error_code="unknown", ...)`). -/
def lastErrCode : Option AttemptOutcome → Option ErrCode
  | some (.err e) => some e
  | some (.ok _) => none
  | none => some .unknown

structure PyFetchResult where
  success : Bool
  error_code : Option ErrCode
  httpAttempts : ℕ
  sleeps : List ℕ
  breaker : CBState
deriving DecidableEq

/-- `PytrendsCollector.fetch` (pytrends_collector.py:79-115): short-circuit on
an open breaker, otherwise run the retry loop and record the result with the
breaker.  `tStart` is the clock at entry, `tEnd` the clock when a final
failure is recorded. -/
def pytrends_fetch (threshold : ℕ) (cooldown tStart tEnd : ℚ)
    (cb : CBState) (retries : ℕ) (o : ℕ → AttemptOutcome) : PyFetchResult :=
  let p := cb_is_open threshold tStart cb
  if p.1 then ⟨false, some .rate_limit, 0, [], p.2⟩
  else
    let lr := fetchLoop o retries retries 1
    if lr.success then ⟨true, none, lr.attemptsMade, lr.sleeps, cb_record_success p.2⟩
    else ⟨false, lastErrCode lr.outcome, lr.attemptsMade, lr.sleeps,
          cb_record_failure threshold cooldown tEnd p.2⟩

/-! ## services/opportunity_service.py — indicators -/

/-- The `(status, score_0_100)` part of an `IndicatorResult`. -/
structure Indicator where
  status : String
  score_0_100 : ℚ
deriving DecidableEq

/-- `get_manual_score` (opportunity_service.py:242-254): the stored manual
input (if any) times 100, clamped and rounded; neutral 50 when absent. -/
def get_manual_score (input : Option ℚ) : Indicator :=
  match input with
  | some v => ⟨"MANUAL", roundTo 1 (pyClamp 0 100 (v * 100))⟩
  | none => ⟨"MISSING", 50⟩

/-- The fields of the latest `DailyTrend` row used by `compute_search_momentum`. -/
structure LatestTrend where
  wow_growth : Option ℚ
  acceleration : Bool
  breakout_percentile : Option ℚ
deriving DecidableEq

/-- `compute_search_momentum` (opportunity_service.py:42-76). -/
def compute_search_momentum (latest : Option LatestTrend) : Indicator :=
  match latest with
  | none => ⟨"MISSING", 50⟩
  | some lt =>
    match lt.wow_growth with
    | none => ⟨"MISSING", 50⟩
    | some w =>
      let score1 := 50 + pyClamp (-20) 20 (w * 100 * (1/2))
      let score2 := if lt.acceleration then score1 + 15 else score1
      let score3 := match lt.breakout_percentile with
        | some bp => score2 + pyClamp (-15) 15 ((bp - 50) * (3/10))
        | none => score2
      ⟨"LIVE", roundTo 1 (pyClamp 0 100 score3)⟩

/-- The piecewise upcoming-event score of `compute_timing_window`
(opportunity_service.py:188-200), over `weeks_until`. -/
def timingEventScore (weeks_until : ℚ) : ℚ :=
  let center : ℚ := (signal_lead_time_weeks : ℚ) - 1
  if 8 ≤ weeks_until ∧ weeks_until ≤ 14 then 95 - |weeks_until - center| / 3 * 15
  else if 14 < weeks_until ∧ weeks_until ≤ 20 then 75 - (weeks_until - 14) * (5/2)
  else if 20 < weeks_until then max 40 (60 - (weeks_until - 20))
  else if 4 ≤ weeks_until ∧ weeks_until < 8 then 50 + (weeks_until - 4) * 5
  else 25 + weeks_until * 6

/-- The event-based branch of `compute_timing_window`
(opportunity_service.py:178-220); `events` are the IP's event dates (day
numbers) in ascending date order, `none` when neither sub-branch returns. -/
def timingFromEvents (today : ℤ) (events : List ℤ) : Option Indicator :=
  let upcoming := events.filter (fun d => decide (today ≤ d))
  let recent_past := events.filter (fun d => decide (today - d ≤ 28))
  match upcoming with
  | nearest :: _ =>
    let weeks_until : ℚ := ((nearest - today : ℤ) : ℚ) / 7
    some ⟨"LIVE", roundTo 1 (pyClamp 0 100 (timingEventScore weeks_until))⟩
  | [] =>
    match recent_past with
    | [] => none
    | r :: rs =>
      let latest_past := rs.foldl max r
      let days_ago : ℚ := ((today - latest_past : ℤ) : ℚ)
      some ⟨"LIVE", roundTo 1 (pyClamp 0 100 (max 20 (60 - days_ago * (3/2))))⟩

/-- Steps 2-4 of `compute_timing_window`: events, then the signal-light
fallback, then MISSING. -/
def timingRest (today : ℤ) (events : List ℤ) (latestLight : Option String) : Indicator :=
  match timingFromEvents today events with
  | some ind => ind
  | none =>
    match latestLight with
    | some l =>
      ⟨"LIVE", if l = "green" then 75 else if l = "yellow" then 50
               else if l = "red" then 25 else 50⟩
    | none => ⟨"MISSING", 50⟩

/-- `compute_timing_window` (opportunity_service.py:154-237): a manual
override differing from 0.5 wins; otherwise events, trend light, MISSING. -/
def compute_timing_window (manual_override : Option ℚ) (today : ℤ)
    (events : List ℤ) (latestLight : Option String) : Indicator :=
  match manual_override with
  | some v =>
    if v ≠ 1/2 then ⟨"MANUAL", roundTo 1 (pyClamp 0 100 (v * 100))⟩
    else timingRest today events latestLight
  | none => timingRest today events latestLight

/-! ## services/bd_allocation_service.py -/

structure BDResult where
  bd_score : ℚ
  bd_decision : String
  fit_gate_score : ℚ
  fit_gate_passed : Bool
  timing_urgency : ℚ
  demand_trajectory : ℚ
  market_gap : ℚ
  feasibility : ℚ
deriving DecidableEq

/-- The scoring core of `compute_bd_score` (bd_allocation_service.py:92-148),
as a pure function of the opportunity outputs it reads: the three fit scores,
the timing / gatekeeper / demand / diffusion / supply dimension scores, the
`search_momentum` acceleration flag, and the stored confidence score (if a
confidence row exists). -/
def compute_bd_score (adult_fit giftability brand_aesthetic : ℚ)
    (timing rightsholder demand diffusion supply : ℚ)
    (searchMomentumAccel : Bool) (confidence_score : Option ℚ) : BDResult :=
  let fit_gate_score := min adult_fit (min giftability brand_aesthetic)
  let fit_gate_passed := bd_fit_gate_threshold ≤ fit_gate_score
  let timing_urgency :=
    pyClamp 0 100 (timing * (1 + bd_gatekeeper_urgency_factor * rightsholder / 100))
  let accel_bonus : ℚ := if searchMomentumAccel then 10 else 0
  let demand_trajectory := pyClamp 0 100 (demand + accel_bonus)
  let market_gap := 100 - supply
  let feasibility := pyClamp 0 100 (1/2 * diffusion + 1/2 * (100 - rightsholder))
  let raw_score := bd_weight_timing * timing_urgency + bd_weight_demand * demand_trajectory
    + bd_weight_market_gap * market_gap + bd_weight_feasibility * feasibility
  let conf_mult := match confidence_score with
    | some c => c / 100
    | none => 1/2
  let bd_score := pyClamp 0 100 (raw_score * conf_mult)
  let bd_decision :=
    if ¬ fit_gate_passed then "REJECT"
    else if bd_start_threshold ≤ bd_score then "START"
    else if bd_monitor_threshold ≤ bd_score then "MONITOR"
    else "REJECT"
  ⟨bd_score, bd_decision, fit_gate_score, fit_gate_passed,
   timing_urgency, demand_trajectory, market_gap, feasibility⟩

/-! ## services/mal_sync_service.py — title matching -/

/-- Python `str.lower` (ASCII case mapping; CJK characters are fixed points
in both Python and Lean). -/
def pyLower (s : List Char) : List Char := s.map Char.toLower

def isPySpace (c : Char) : Bool :=
  c == ' ' || c == '\t' || c == '\n' || c == '\r'

/-- Python `str.strip()` restricted to common whitespace. -/
def pyStrip (s : List Char) : List Char :=
  ((s.dropWhile isPySpace).reverse.dropWhile isPySpace).reverse

/-- `term.lower().strip()`. -/
def lowerStrip (s : List Char) : List Char := pyStrip (pyLower s)

/-- Python `xs in ys` on strings: contiguous-substring test. -/
def substrOf (xs ys : List Char) : Bool :=
  ys.tails.any (fun t => xs.isPrefixOf t)

/-- `_is_title_match` (mal_sync_service.py:39-68), over the list of candidate
titles gathered from the Jikan record. -/
def is_title_match (search_term : List Char) (titles : List (List Char)) : Bool :=
  let term_lower := lowerStrip search_term
  if term_lower.isEmpty then false
  else titles.any (fun title =>
    let title_lower := lowerStrip title
    (decide (2 ≤ term_lower.length) && substrOf term_lower title_lower)
      || (decide (2 ≤ title_lower.length) && substrOf title_lower term_lower))

/-! ## services/confidence_service.py -/

inductive SourceStatus
  | ok
  | warn
  | down
deriving DecidableEq

/-- A `SourceRegistry` row (the fields `compute_ip_confidence` reads). -/
structure SourceReg where
  source_key : String
  is_key_source : Bool
  availability_level : String
  priority_weight : ℚ
deriving DecidableEq

/-- `AVAILABILITY_FACTOR.get(level, 0.8)`. -/
def availabilityFactor (lvl : String) : ℚ :=
  if lvl = "high" then 1 else if lvl = "medium" then 8/10
  else if lvl = "low" then 1/2 else 8/10

/-- `health_map.get(source_key)`: lookup of the per-(ip, source) health row. -/
def lookupHealth (rows : List (String × SourceStatus)) (k : String) : Option SourceStatus :=
  (rows.find? (fun r => r.1 == k)).map (fun r => r.2)

/-- The key indicators counted as missing (confidence_service.py:252-261):
each of `search_momentum`, `video_momentum`, `timing_window` that is neither
live from its dataset nor present as a stored manual input. -/
def missingKeyIndicators (storedInputs : List String)
    (hasTrends hasEvents hasYoutube : Bool) : ℕ :=
  (["search_momentum", "video_momentum", "timing_window"].filter (fun k =>
    decide (¬ (k = "search_momentum" ∧ hasTrends = true) ∧
            ¬ (k = "timing_window" ∧ hasEvents = true) ∧
            ¬ (k = "video_momentum" ∧ hasYoutube = true) ∧
            k ∉ storedInputs))).length

structure ConfResult where
  active_indicators : ℕ
  missing_key_count : ℕ
  active_sources : ℕ
  attempted_sources : ℕ
  expected_sources : ℕ
  indicator_coverage : ℚ
  source_coverage : ℚ
  base : ℚ
  penalty : ℚ
  risk_adjustment : ℚ
  confidence_score : ℤ
  confidence_band : String
deriving DecidableEq

/-- The scoring part of `compute_ip_confidence`
(confidence_service.py:185-317), as a pure function of: the source registry,
the IP's health rows (keyed by source), its stored manual-indicator keys, and
the four dataset-presence flags. -/
def compute_ip_confidence (registries : List SourceReg)
    (healthRows : List (String × SourceStatus))
    (storedInputs : List String)
    (hasTrends hasEvents hasYoutube hasMerch : Bool) : ConfResult :=
  let expected := registries.length
  let active_sources := (healthRows.filter (fun r => decide (r.2 = .ok))).length
  let attempted := healthRows.length
  let active_indicators := storedInputs.length
    + (if hasTrends then 2 else 0) + (if hasEvents then 1 else 0)
    + (if hasYoutube then 1 else 0)
    + (if hasMerch ∧ "merch_pressure" ∉ storedInputs then 1 else 0)
  let missing := missingKeyIndicators storedInputs hasTrends hasEvents hasYoutube
  let indicator_coverage : ℚ := (active_indicators : ℚ) / 13
  let source_coverage : ℚ :=
    if 0 < attempted then
      ((active_sources : ℚ) / (attempted : ℚ))
        * (if 0 < expected then (attempted : ℚ) / (expected : ℚ) else 0)
    else 0
  let base := 100 * (confidence_indicator_weight * indicator_coverage
    + confidence_source_weight * source_coverage)
  let srcPenalty := registries.foldl (fun acc reg =>
    if reg.is_key_source then
      match lookupHealth healthRows reg.source_key with
      | none => acc
      | some .down => acc + confidence_key_source_down_penalty
      | some .warn => acc + confidence_key_source_warn_penalty
      | some .ok => acc
    else acc) 0
  let penalty := srcPenalty
    + min ((missing : ℚ) * confidence_key_indicator_missing_penalty)
        confidence_key_indicator_penalty_cap
  let risk_sum := registries.foldl
    (fun acc reg => acc + reg.priority_weight * availabilityFactor reg.availability_level) 0
  let risk_count := registries.foldl (fun acc reg => acc + reg.priority_weight) 0
  let risk_adjustment := if 0 < risk_count then risk_sum / risk_count else 1
  let penalty_fraction := min (penalty / 100) (8/10)
  let score : ℤ := max 0 (min 100 (pyTrunc (base * risk_adjustment * (1 - penalty_fraction))))
  let band := if 80 ≤ score then "high" else if 60 ≤ score then "medium"
    else if 40 ≤ score then "low" else "insufficient"
  ⟨active_indicators, missing, active_sources, attempted, expected,
   indicator_coverage, source_coverage, base, penalty, risk_adjustment, score, band⟩

/-! ## Helper lemmas -/

lemma pyClamp_bounds (lo hi x : ℚ) (h : lo ≤ hi) :
    lo ≤ pyClamp lo hi x ∧ pyClamp lo hi x ≤ hi := by
  unfold pyClamp
  constructor
  · exact le_max_left _ _
  · exact max_le h (min_le_left _ _)

lemma le_roundHalfEven (a : ℤ) (x : ℚ) (h : (a : ℚ) ≤ x) : a ≤ roundHalfEven x := by
  have hf : a ≤ ⌊x⌋ := Int.le_floor.mpr h
  simp only [roundHalfEven]
  split_ifs <;> omega

lemma roundHalfEven_le (b : ℤ) (x : ℚ) (h : x ≤ (b : ℚ)) : roundHalfEven x ≤ b := by
  have hf : ⌊x⌋ ≤ b := by
    have := Int.floor_le_floor h
    simpa using this
  have hfx : (⌊x⌋ : ℚ) ≤ x := Int.floor_le x
  simp only [roundHalfEven]
  split_ifs with h1 h2 h3
  · exact hf
  · -- x - ⌊x⌋ > 1/2, so ⌊x⌋ < b
    rcases eq_or_lt_of_le hf with he | hl
    · exfalso
      have : x - (⌊x⌋ : ℚ) ≤ 0 := by
        rw [he]; linarith
      linarith
    · omega
  · exact hf
  · -- tie: x - ⌊x⌋ = 1/2, so ⌊x⌋ < b
    have htie : x - (⌊x⌋ : ℚ) = 1/2 := le_antisymm (not_lt.mp h2) (not_lt.mp h1)
    rcases eq_or_lt_of_le hf with he | hl
    · exfalso
      have : x - (⌊x⌋ : ℚ) ≤ 0 := by rw [he]; linarith
      linarith
    · omega

lemma roundTo_bounds (n : ℕ) (a b : ℤ) (x : ℚ) (ha : (a : ℚ) ≤ x) (hb : x ≤ (b : ℚ)) :
    (a : ℚ) ≤ roundTo n x ∧ roundTo n x ≤ (b : ℚ) := by
  have hpow : (0 : ℚ) < 10 ^ n := by positivity
  have h1 : (a * 10 ^ n : ℤ) ≤ roundHalfEven (x * 10 ^ n) := by
    apply le_roundHalfEven
    push_cast
    exact mul_le_mul_of_nonneg_right ha (le_of_lt hpow)
  have h2 : roundHalfEven (x * 10 ^ n) ≤ (b * 10 ^ n : ℤ) := by
    apply roundHalfEven_le
    push_cast
    exact mul_le_mul_of_nonneg_right hb (le_of_lt hpow)
  unfold roundTo
  constructor
  · rw [le_div_iff₀ hpow]
    calc (a : ℚ) * 10 ^ n = ((a * 10 ^ n : ℤ) : ℚ) := by push_cast; ring
    _ ≤ _ := by exact_mod_cast h1
  · rw [div_le_iff₀ hpow]
    calc (roundHalfEven (x * 10 ^ n) : ℚ) ≤ ((b * 10 ^ n : ℤ) : ℚ) := by exact_mod_cast h2
    _ = (b : ℚ) * 10 ^ n := by push_cast; ring

lemma statMean_nonneg (l : List ℚ) (h : ∀ v ∈ l, 0 ≤ v) : 0 ≤ statMean l := by
  unfold statMean
  apply div_nonneg (List.sum_nonneg h)
  exact_mod_cast Nat.zero_le _

lemma lastN_length (n : ℕ) (l : List ℚ) : (lastN n l).length = min n l.length := by
  unfold lastN
  rw [List.length_drop]
  omega

/-! ## Claim C4 — fit gate forces REJECT -/

/-- Claim C4: for every IP, whenever `min(adult_fit, giftability,
brand_aesthetic)` is below the fit-gate threshold (default 30),
`compute_bd_score` returns `bd_decision = REJECT`, regardless of the timing,
demand, market-gap and feasibility components and of the confidence
multiplier. -/
theorem claim_C4_fit_gate_reject
    (adult_fit giftability brand_aesthetic timing rightsholder demand diffusion supply : ℚ)
    (accel : Bool) (conf : Option ℚ)
    (hgate : min adult_fit (min giftability brand_aesthetic) < bd_fit_gate_threshold) :
    (compute_bd_score adult_fit giftability brand_aesthetic timing rightsholder
      demand diffusion supply accel conf).bd_decision = "REJECT" := by
  simp only [compute_bd_score]
  rw [if_pos]
  exact not_le.mpr hgate

/-- Witness for C4 at the spec's fit-gate scenario: `adult_fit = 20`,
`giftability = 90`, `brand_aesthetic = 80`, other components 70,
confidence 80. -/
theorem claim_C4_fit_gate_reject_witness :
    min (20 : ℚ) (min 90 80) < bd_fit_gate_threshold ∧
    (compute_bd_score 20 90 80 70 50 70 70 70 true (some 80)).bd_decision = "REJECT" :=
  ⟨by norm_num [bd_fit_gate_threshold],
   claim_C4_fit_gate_reject 20 90 80 70 50 70 70 70 true (some 80)
     (by norm_num [bd_fit_gate_threshold])⟩

/-! ## Claim C5 — week-over-week growth -/

/-- Claim C5: over a composite series (nonnegative values) sorted by date,
`wow_growth` is null when fewer than 14 values exist up to the date;
otherwise it equals `mean(last 7) / mean(prior 7) − 1`, and equals 0 (not an
error) when the prior-week mean is 0. -/
theorem claim_C5_wow_growth (values : List ℚ) (hpos : ∀ v ∈ values, 0 ≤ v) :
    (values.length < 14 → wowCalc values = none) ∧
    (14 ≤ values.length → statMean ((lastN 14 values).take 7) = 0 →
      wowCalc values = some 0) ∧
    (14 ≤ values.length → statMean ((lastN 14 values).take 7) ≠ 0 →
      wowCalc values = some
        (statMean (lastN 7 values) / statMean ((lastN 14 values).take 7) - 1)) := by
  refine ⟨?_, ?_, ?_⟩
  · intro h
    simp only [wowCalc, if_neg (Nat.not_le.mpr h)]
  · intro h14 hz
    simp only [wowCalc, if_pos h14, hz]
    norm_num
  · intro h14 hne
    have h0 : 0 ≤ statMean ((lastN 14 values).take 7) := by
      apply statMean_nonneg
      intro v hv
      exact hpos v (List.drop_subset _ _ (List.take_subset _ _ hv))
    have hlt : 0 < statMean ((lastN 14 values).take 7) := lt_of_le_of_ne h0 (Ne.symm hne)
    simp only [wowCalc, if_pos h14, if_pos hlt]

/-- Witness for C5: seven 1-values followed by seven 2-values give
`wow_growth = 2/1 − 1 = 1`; a 10-value series gives null. -/
theorem claim_C5_wow_growth_witness :
    (∀ v ∈ ([1, 1, 1, 1, 1, 1, 1, 2, 2, 2, 2, 2, 2, 2] : List ℚ), 0 ≤ v) ∧
    wowCalc [1, 1, 1, 1, 1, 1, 1, 2, 2, 2, 2, 2, 2, 2] = some 1 ∧
    wowCalc [1, 1, 1, 1, 1, 1, 1, 2, 2, 2] = none := by
  refine ⟨by decide, ?_, ?_⟩
  · have h := (claim_C5_wow_growth [1, 1, 1, 1, 1, 1, 1, 2, 2, 2, 2, 2, 2, 2]
      (by decide)).2.2 (by decide) (by norm_num [statMean, lastN])
    rw [h]
    norm_num [statMean, lastN]
  · exact (claim_C5_wow_growth [1, 1, 1, 1, 1, 1, 1, 2, 2, 2] (by decide)).1 (by decide)

/-! ## Claim C6 — signal light characterisation -/

/-- Claim C6: for every computed composite row, `signal_light` is green if and
only if `wow_growth > T_wow`, acceleration is true, and
`breakout_percentile ≥ P_break`; it is red if and only if `ma7 < ma28` and
`wow_growth < 0` (and not green); otherwise it is yellow — with the default
thresholds `T_wow = 0.30` and `P_break = 85`. -/
theorem claim_C6_signal_light (wow : Option ℚ) (accel : Option Bool)
    (bp ma7v ma28v : Option ℚ) :
    (compute_signal_light wow accel bp ma7v ma28v = "green" ↔
      ((∃ w, wow = some w ∧ signal_wow_growth_threshold < w) ∧ accel = some true ∧
        (∃ b, bp = some b ∧ signal_breakout_percentile ≤ b))) ∧
    (compute_signal_light wow accel bp ma7v ma28v = "red" ↔
      (((∃ a b, ma7v = some a ∧ ma28v = some b ∧ a < b) ∧ (∃ w, wow = some w ∧ w < 0)) ∧
        ¬ ((∃ w, wow = some w ∧ signal_wow_growth_threshold < w) ∧ accel = some true ∧
          (∃ b, bp = some b ∧ signal_breakout_percentile ≤ b)))) ∧
    (compute_signal_light wow accel bp ma7v ma28v = "yellow" ↔
      (¬ ((∃ w, wow = some w ∧ signal_wow_growth_threshold < w) ∧ accel = some true ∧
          (∃ b, bp = some b ∧ signal_breakout_percentile ≤ b)) ∧
       ¬ ((∃ a b, ma7v = some a ∧ ma28v = some b ∧ a < b) ∧
          (∃ w, wow = some w ∧ w < 0)))) := by
  rcases wow with _ | w <;> rcases accel with _ | a <;> rcases bp with _ | b <;>
    rcases ma7v with _ | m7 <;> rcases ma28v with _ | m28 <;>
  · simp only [compute_signal_light, wowAboveThresh, bpAboveThresh, decliningCond,
      List.all_cons, List.all_nil, Bool.and_true, Bool.and_eq_true,
      decide_eq_true_eq, Option.some.injEq, reduceCtorEq]
    split_ifs <;> simp_all

/-! ## Claim C3 — run_collection final status -/

/-- Counterexample to claim C3: with two enabled aliases of which exactly one
returns data (5 points), `run_collection` reports status `"success"` (with a
partial message), not the claimed `"success-partial"`. -/
theorem claim_C3_counterexample :
    run_collection_result true [some 5, none] = ("success", .somePointsSomeFailed) ∧
    "success" ≠ "success-partial" := by
  constructor
  · rfl
  · decide

/-- Claim C3 as amended: with the IP found and at least one enabled alias,
`run_collection` returns status `"success"` when every alias fetch succeeded;
it also returns `"success"` — distinguished only by the partial message —
when some fetch failed but at least one point was collected; it returns
`"fail"` when some fetch failed and no points were collected; and the status
`"success-partial"` is never returned. -/
theorem claim_C3_amended (results : List AliasFetch) (hne : results ≠ []) :
    (run_collection_result true results = ("success", .collected) ↔
      results.all (fun r => r.isSome) = true) ∧
    (run_collection_result true results = ("success", .somePointsSomeFailed) ↔
      results.all (fun r => r.isSome) = false ∧ 0 < (results.filterMap (fun r => r)).sum) ∧
    ((run_collection_result true results).1 = "fail" ↔
      results.all (fun r => r.isSome) = false ∧ (results.filterMap (fun r => r)).sum = 0) ∧
    (run_collection_result true results).1 ≠ "success-partial" := by
  have hemp : results.isEmpty = false := by
    cases results with
    | nil => exact absurd rfl hne
    | cons a l => rfl
  simp only [run_collection_result, not_true, if_false, hemp, Bool.false_eq_true,
    ite_false]
  rcases hall : results.all (fun r => r.isSome) with _ | _ <;>
    rcases hpos : decide (0 < (results.filterMap (fun r => r)).sum) with _ | _ <;>
    simp_all <;> omega

/-- Witness for the amended C3 at concrete inputs: all-success, partial, and
all-fail runs. -/
theorem claim_C3_amended_witness :
    run_collection_result true [some 5, none] = ("success", .somePointsSomeFailed) ∧
    run_collection_result true [some 5, some 0] = ("success", .collected) ∧
    (run_collection_result true [none, none]).1 = "fail" := by
  refine ⟨?_, ?_, ?_⟩
  · exact (claim_C3_amended [some 5, none] (by decide)).2.1.mpr (by decide)
  · exact (claim_C3_amended [some 5, some 0] (by decide)).1.mpr (by decide)
  · exact (claim_C3_amended [none, none] (by decide)).2.2.1.mpr (by decide)

/-! ## Claim C2 — circuit breaker state machine -/

/-- The final conjunct of claim C2, transcribed as stated: once the breaker is
open (count at threshold) and the cooldown has elapsed at time `t`, the next
call is admitted, and a single recorded failure during this half-open state
reopens the breaker for another `C` seconds (so `is_open` is true at any
`t2 ∈ [t, t + C)` afterwards). -/
def claimC2HalfOpenReopen : Prop :=
  ∀ (n : ℕ) (c t t2 : ℚ) (s : CBState),
    1 ≤ n → 0 < c → n ≤ s.consecutive_failures → s.open_until ≤ t →
    t ≤ t2 → t2 < t + c →
    (cb_is_open n t2 (cb_record_failure n c t (cb_is_open n t s).2)).1 = true

/-- Counterexample to claim C2: with the default threshold 5 and cooldown
1800 s, a breaker opened at time 0 admits the probe at `t = 1800` (count is
reset to 0), and a failure there leaves the count at 1 — `is_open` at
`t2 = 1801` is false, not true as the half-open-reopen conjunct claims. -/
theorem claim_C2_counterexample : ¬ claimC2HalfOpenReopen := by
  intro h
  have h5 := h 5 1800 1800 1801 ⟨5, 1800⟩ (by norm_num) (by norm_num) (by norm_num)
    (by norm_num) (by norm_num) (by norm_num)
  rw [show (cb_is_open 5 1800 ⟨5, 1800⟩).2 = ⟨0, 1800⟩ by
    simp [cb_is_open]] at h5
  rw [show cb_record_failure 5 1800 1800 ⟨0, 1800⟩ = ⟨1, 1800⟩ by
    simp [cb_record_failure]] at h5
  rw [show (cb_is_open 5 1801 ⟨1, 1800⟩).1 = false by
    simp [cb_is_open]] at h5
  exact Bool.false_ne_true h5

/-- Claim C2 as amended: each recorded failure increments the consecutive
count and each success resets it to 0; the failure that brings the count to
the threshold `N` opens the breaker until `t + C`, during which `is_open` is
true and `fetch` short-circuits with a `rate_limit` error and no HTTP
attempt; once the cooldown has elapsed the next `is_open` check admits the
call and resets the count to 0, so after a success the breaker stays closed,
while a failure during half-open leaves the count at 1: it reopens the
breaker immediately only when `N = 1`, and for `N ≥ 2` the breaker stays
closed until `N` new consecutive failures accumulate. -/
theorem claim_C2_amended (n : ℕ) (c : ℚ) (s : CBState) (t t2 tEnd : ℚ)
    (retries : ℕ) (o : ℕ → AttemptOutcome) (hn : 1 ≤ n) (hc : 0 < c) :
    ((cb_record_failure n c t s).consecutive_failures = s.consecutive_failures + 1) ∧
    ((cb_record_success s).consecutive_failures = 0) ∧
    (s.consecutive_failures + 1 = n → (cb_record_failure n c t s).open_until = t + c) ∧
    (n ≤ s.consecutive_failures + 1 → t ≤ t2 → t2 < t + c →
      (cb_is_open n t2 (cb_record_failure n c t s)).1 = true) ∧
    ((cb_is_open n t2 s).1 = true →
      pytrends_fetch n c t2 tEnd s retries o = ⟨false, some .rate_limit, 0, [], s⟩) ∧
    (n ≤ s.consecutive_failures → s.open_until ≤ t2 →
      (cb_is_open n t2 s).1 = false ∧ (cb_is_open n t2 s).2.consecutive_failures = 0) ∧
    ((cb_is_open n t2 (cb_record_success s)).1 = false) ∧
    (n ≤ s.consecutive_failures → s.open_until ≤ t →
      (cb_record_failure n c t (cb_is_open n t s).2).consecutive_failures = 1 ∧
      (2 ≤ n → ∀ t3 : ℚ,
        (cb_is_open n t3 (cb_record_failure n c t (cb_is_open n t s).2)).1 = false) ∧
      (n = 1 → t ≤ t2 → t2 < t + c →
        (cb_is_open n t2 (cb_record_failure n c t (cb_is_open n t s).2)).1 = true)) := by
  refine ⟨?_, rfl, ?_, ?_, ?_, ?_, ?_, ?_⟩
  · simp only [cb_record_failure]
    split_ifs <;> rfl
  · intro hth
    simp only [cb_record_failure]
    rw [if_pos (by omega)]
  · intro hth hle hlt
    have hfail : (cb_record_failure n c t s) = ⟨s.consecutive_failures + 1, t + c⟩ := by
      simp only [cb_record_failure]
      rw [if_pos hth]
    rw [hfail]
    simp only [cb_is_open]
    rw [if_pos hth, if_pos hlt]
  · intro hopen
    have h2 : (cb_is_open n t2 s).2 = s := by
      unfold cb_is_open at hopen ⊢
      split_ifs at hopen ⊢ <;> simp_all
    simp only [pytrends_fetch, hopen, h2]
    simp
  · intro hth hcool
    simp only [cb_is_open]
    rw [if_pos hth, if_neg (not_lt.mpr hcool)]
    exact ⟨rfl, rfl⟩
  · simp only [cb_is_open, cb_record_success]
    rw [if_neg (by omega)]
  · intro hth hcool
    have hreset : (cb_is_open n t s).2 = { s with consecutive_failures := 0 } := by
      simp only [cb_is_open]
      rw [if_pos hth, if_neg (not_lt.mpr hcool)]
    rw [hreset]
    have hrec : cb_record_failure n c t { s with consecutive_failures := 0 } =
        if n ≤ 1 then (⟨1, t + c⟩ : CBState)
        else { s with consecutive_failures := 1 } := by
      simp only [cb_record_failure]
    refine ⟨?_, ?_, ?_⟩
    · rw [hrec]; split_ifs <;> rfl
    · intro h2 t3
      rw [hrec, if_neg (by omega)]
      simp only [cb_is_open]
      rw [if_neg (by omega)]
    · intro h1 hle hlt
      subst h1
      rw [hrec, if_pos le_rfl]
      simp only [cb_is_open]
      rw [if_pos le_rfl, if_pos hlt]

/-- Witness for the amended C2 at the spec's breaker scenario
(`threshold = 5`, `cooldown = 1800`). -/
theorem claim_C2_amended_witness :
    (cb_record_failure 5 1800 0 ⟨4, 0⟩).consecutive_failures = 4 + 1 ∧
    (cb_record_failure 5 1800 0 ⟨4, 0⟩).open_until = 0 + 1800 := by
  have h := claim_C2_amended 5 1800 ⟨4, 0⟩ 0 0 0 3 (fun _ => .err .network)
    (by norm_num) (by norm_num)
  exact ⟨h.1, h.2.2.1 rfl⟩

/-! ## Claim C8 — retry policy -/

lemma fetchLoop_attempts_le (o : ℕ → AttemptOutcome) (retries : ℕ) :
    ∀ (fuel attempt : ℕ), (fetchLoop o retries fuel attempt).attemptsMade ≤ fuel := by
  intro fuel
  induction fuel with
  | zero => intro attempt; simp [fetchLoop]
  | succ f ih =>
    intro attempt
    rcases ho : o attempt with p | e
    · simp [fetchLoop, ho]
    · simp only [fetchLoop, ho]
      by_cases h1 : e = ErrCode.auth
      · rw [if_pos h1]; simp
      · rw [if_neg h1]
        by_cases h2 : attempt < retries
        · rw [if_pos h2]
          simpa using Nat.succ_le_succ (ih (attempt + 1))
        · rw [if_neg h2]; simp

lemma fetchLoop_attempts_pos (o : ℕ → AttemptOutcome) (retries fuel attempt : ℕ)
    (h : 1 ≤ fuel) : 1 ≤ (fetchLoop o retries fuel attempt).attemptsMade := by
  cases fuel with
  | zero => omega
  | succ f =>
    rcases ho : o attempt with p | e
    · simp [fetchLoop, ho]
    · simp only [fetchLoop, ho]
      by_cases h1 : e = ErrCode.auth
      · simp [if_pos h1]
      · rw [if_neg h1]
        by_cases h2 : attempt < retries
        · simp [if_pos h2]
        · simp [if_neg h2]

lemma fetchLoop_sleeps (o : ℕ → AttemptOutcome) (retries : ℕ) :
    ∀ (fuel attempt : ℕ), retries + 1 ≤ attempt + fuel →
      (fetchLoop o retries fuel attempt).sleeps =
        (List.range' attempt ((fetchLoop o retries fuel attempt).attemptsMade - 1)).map
          (fun k => 2 ^ k) := by
  intro fuel
  induction fuel with
  | zero => intro attempt _; simp [fetchLoop]
  | succ f ih =>
    intro attempt hinv
    rcases ho : o attempt with p | e
    · simp [fetchLoop, ho]
    · simp only [fetchLoop, ho]
      by_cases h1 : e = ErrCode.auth
      · rw [if_pos h1]; simp
      · rw [if_neg h1]
        by_cases h2 : attempt < retries
        · rw [if_pos h2]
          have hf : 1 ≤ f := by omega
          have hpos := fetchLoop_attempts_pos o retries f (attempt + 1) hf
          have hr := ih (attempt + 1) (by omega)
          simp only []
          rw [hr]
          have hlen : (fetchLoop o retries f (attempt + 1)).attemptsMade + 1 - 1 =
              ((fetchLoop o retries f (attempt + 1)).attemptsMade - 1) + 1 := by omega
          rw [hlen, List.range'_succ, List.map_cons]
        · rw [if_neg h2]; simp

lemma fetchLoop_auth_stops (o : ℕ → AttemptOutcome) (retries : ℕ) :
    ∀ (fuel attempt k : ℕ), attempt ≤ k →
      k < attempt + (fetchLoop o retries fuel attempt).attemptsMade →
      o k = .err .auth →
      attempt + (fetchLoop o retries fuel attempt).attemptsMade = k + 1 := by
  intro fuel
  induction fuel with
  | zero => intro attempt k h1 h2 _; simp [fetchLoop] at h2; omega
  | succ f ih =>
    intro attempt k hak hlt hauth
    rcases ho : o attempt with p | e
    · simp only [fetchLoop, ho] at hlt ⊢
      simp at hlt ⊢
      omega
    · simp only [fetchLoop, ho] at hlt ⊢
      by_cases h1 : e = ErrCode.auth
      · rw [if_pos h1] at hlt ⊢
        simp at hlt ⊢
        omega
      · rw [if_neg h1] at hlt ⊢
        by_cases h2 : attempt < retries
        · rw [if_pos h2] at hlt ⊢
          simp only [] at hlt ⊢
          rcases Nat.eq_or_lt_of_le hak with he | hgt
          · exfalso
            apply h1
            have hee : AttemptOutcome.err e = AttemptOutcome.err ErrCode.auth := by
              rw [← ho, he]; exact hauth
            exact AttemptOutcome.err.inj hee
          · have := ih (attempt + 1) k hgt (by omega) hauth
            omega
        · rw [if_neg h2] at hlt ⊢
          simp at hlt ⊢
          rcases Nat.eq_or_lt_of_le hak with he | hgt
          · exfalso
            apply h1
            have hee : AttemptOutcome.err e = AttemptOutcome.err ErrCode.auth := by
              rw [← ho, he]; exact hauth
            exact AttemptOutcome.err.inj hee
          · omega

lemma fetchLoop_all_retryable (o : ℕ → AttemptOutcome) (retries : ℕ) :
    ∀ (fuel attempt : ℕ), attempt + fuel = retries + 1 → attempt ≤ retries →
      (∀ k, attempt ≤ k → k ≤ retries → ∃ e, o k = .err e ∧ e ≠ .auth) →
      (fetchLoop o retries fuel attempt).attemptsMade = fuel := by
  intro fuel
  induction fuel with
  | zero => intro attempt h1 h2 _; omega
  | succ f ih =>
    intro attempt hinv hle hall
    obtain ⟨e, hoe, hne⟩ := hall attempt le_rfl hle
    simp only [fetchLoop, hoe]
    rw [if_neg hne]
    by_cases h2 : attempt < retries
    · rw [if_pos h2]
      simp only []
      rw [ih (attempt + 1) (by omega) (by omega)
        (fun k hk1 hk2 => hall k (by omega) hk2)]
    · rw [if_neg h2]
      simp only [LoopResult.attemptsMade]
      omega

lemma pytrends_fetch_loop_fields (threshold : ℕ) (cooldown tStart tEnd : ℚ)
    (cb : CBState) (retries : ℕ) (o : ℕ → AttemptOutcome)
    (hclosed : (cb_is_open threshold tStart cb).1 = false) :
    (pytrends_fetch threshold cooldown tStart tEnd cb retries o).httpAttempts =
      (fetchLoop o retries retries 1).attemptsMade ∧
    (pytrends_fetch threshold cooldown tStart tEnd cb retries o).sleeps =
      (fetchLoop o retries retries 1).sleeps := by
  simp only [pytrends_fetch, hclosed, Bool.false_eq_true, if_false]
  split_ifs <;> exact ⟨rfl, rfl⟩

/-- Claim C8: whenever the breaker admits the call, the collector makes at
most `R` HTTP attempts, sleeps `2^attempt` seconds between consecutive
attempts, makes no further attempt after an auth error regardless of `R`, and
retries retryable errors (rate_limit / timeout / network / unknown / empty)
up to the limit. -/
theorem claim_C8_retry_policy (threshold : ℕ) (cooldown tStart tEnd : ℚ)
    (cb : CBState) (retries : ℕ) (o : ℕ → AttemptOutcome)
    (hclosed : (cb_is_open threshold tStart cb).1 = false) :
    (pytrends_fetch threshold cooldown tStart tEnd cb retries o).httpAttempts ≤ retries ∧
    (pytrends_fetch threshold cooldown tStart tEnd cb retries o).sleeps =
      (List.range' 1
        ((pytrends_fetch threshold cooldown tStart tEnd cb retries o).httpAttempts - 1)).map
        (fun k => 2 ^ k) ∧
    (∀ k, 1 ≤ k →
      k ≤ (pytrends_fetch threshold cooldown tStart tEnd cb retries o).httpAttempts →
      o k = .err .auth →
      (pytrends_fetch threshold cooldown tStart tEnd cb retries o).httpAttempts = k) ∧
    ((∀ k, 1 ≤ k → k ≤ retries → ∃ e, o k = .err e ∧ e ≠ .auth) →
      (pytrends_fetch threshold cooldown tStart tEnd cb retries o).httpAttempts = retries) := by
  obtain ⟨ha, hs⟩ :=
    pytrends_fetch_loop_fields threshold cooldown tStart tEnd cb retries o hclosed
  rw [ha, hs]
  refine ⟨fetchLoop_attempts_le o retries retries 1, ?_, ?_, ?_⟩
  · cases retries with
    | zero => simp [fetchLoop]
    | succ r => exact fetchLoop_sleeps o (r + 1) (r + 1) 1 (by omega)
  · intro k hk1 hk2 hauth
    have := fetchLoop_auth_stops o retries retries 1 k hk1 (by omega) hauth
    omega
  · intro hall
    cases retries with
    | zero => simp [fetchLoop]
    | succ r => exact fetchLoop_all_retryable o (r + 1) (r + 1) 1 (by omega) (by omega) hall

/-- Witness for C8: a closed breaker, 3 retries, and persistent network
errors give exactly 3 attempts with backoffs of 2 and 4 seconds. -/
theorem claim_C8_retry_policy_witness :
    (pytrends_fetch 5 1800 0 0 ⟨0, 0⟩ 3 (fun _ => .err .network)).httpAttempts = 3 ∧
    (pytrends_fetch 5 1800 0 0 ⟨0, 0⟩ 3 (fun _ => .err .network)).sleeps =
      (List.range' 1 (3 - 1)).map (fun k => 2 ^ k) := by
  have h := claim_C8_retry_policy 5 1800 0 0 ⟨0, 0⟩ 3 (fun _ => .err .network)
    (by simp [cb_is_open])
  have ha := h.2.2.2 (fun k _ _ => ⟨.network, rfl, by decide⟩)
  exact ⟨ha, by rw [h.2.1, ha]⟩

/-! ## Claim C9 — MAL title matching -/

/-- Claim C9: a MAL title match succeeds only if, after lowercasing and
trimming, the search term is contained in some catalogue title or a
catalogue title is contained in the search term, with the contained string at
least 2 characters long; in particular "芙莉蓮" does not match the Love Live!
Hasunosora catalogue titles, and the single character "蓮" never matches
"蓮華" (in either direction). -/
theorem claim_C9_title_match :
    (∀ (term : List Char) (titles : List (List Char)),
      is_title_match term titles = true →
      ∃ title ∈ titles,
        (2 ≤ (lowerStrip term).length ∧
          substrOf (lowerStrip term) (lowerStrip title) = true) ∨
        (2 ≤ (lowerStrip title).length ∧
          substrOf (lowerStrip title) (lowerStrip term) = true)) ∧
    is_title_match "芙莉蓮".toList
      ["Love Live! Hasunosora Jogakuin School Idol Club Movie: Bloom Garden Party".toList,
       "映画 ラブライブ！蓮ノ空女学院スクールアイドルクラブ Bloom Garden Party".toList] = false ∧
    is_title_match "蓮".toList ["蓮華".toList] = false ∧
    is_title_match "蓮華".toList ["Ren".toList, "蓮".toList] = false := by
  refine ⟨?_, by decide, by decide, by decide⟩
  intro term titles h
  simp only [is_title_match] at h
  by_cases he : (lowerStrip term).isEmpty
  · rw [if_pos he] at h
    exact absurd h (by simp)
  · rw [if_neg he] at h
    obtain ⟨title, hmem, hb⟩ := List.any_eq_true.mp h
    refine ⟨title, hmem, ?_⟩
    simpa only [Bool.or_eq_true, Bool.and_eq_true, decide_eq_true_eq] using hb

/-- Witness for C9: the match for "Frieren" against "Sousou no Frieren"
satisfies the containment contract. -/
theorem claim_C9_title_match_witness :
    is_title_match "Frieren".toList ["Sousou no Frieren".toList] = true ∧
    (∃ title ∈ ["Sousou no Frieren".toList],
      (2 ≤ (lowerStrip "Frieren".toList).length ∧
        substrOf (lowerStrip "Frieren".toList) (lowerStrip title) = true) ∨
      (2 ≤ (lowerStrip title).length ∧
        substrOf (lowerStrip title) (lowerStrip "Frieren".toList) = true)) :=
  ⟨by decide, claim_C9_title_match.1 "Frieren".toList ["Sousou no Frieren".toList] (by decide)⟩

/-! ## Claim C10 — indicator score ranges -/

lemma roundClamp_bounds (x : ℚ) :
    0 ≤ roundTo 1 (pyClamp 0 100 x) ∧ roundTo 1 (pyClamp 0 100 x) ≤ 100 := by
  have hc := pyClamp_bounds 0 100 x (by norm_num)
  have hb := roundTo_bounds 1 0 100 (pyClamp 0 100 x)
    (by exact_mod_cast hc.1) (by exact_mod_cast hc.2)
  exact ⟨by exact_mod_cast hb.1, by exact_mod_cast hb.2⟩

lemma timingFromEvents_spec (today : ℤ) (events : List ℤ) (ind : Indicator)
    (h : timingFromEvents today events = some ind) :
    ind.status = "LIVE" ∧ 0 ≤ ind.score_0_100 ∧ ind.score_0_100 ≤ 100 := by
  rcases hu : events.filter (fun d => decide (today ≤ d)) with _ | ⟨nearest, rest⟩ <;>
    simp only [timingFromEvents, hu] at h
  · rcases hr : events.filter (fun d => decide (today - d ≤ 28)) with _ | ⟨r, rs⟩ <;>
      simp only [hr] at h
    · exact absurd h (by simp)
    · obtain rfl := (Option.some.injEq _ _).mp h
      exact ⟨rfl, roundClamp_bounds _⟩
  · obtain rfl := (Option.some.injEq _ _).mp h
    exact ⟨rfl, roundClamp_bounds _⟩

lemma timingRest_spec (today : ℤ) (events : List ℤ) (light : Option String) :
    (0 ≤ (timingRest today events light).score_0_100 ∧
      (timingRest today events light).score_0_100 ≤ 100) ∧
    ((timingRest today events light).status = "MISSING" →
      (timingRest today events light).score_0_100 = 50) := by
  rcases hev : timingFromEvents today events with _ | ind
  · rcases light with _ | l
    · simp only [timingRest, hev]
      exact ⟨⟨by norm_num, by norm_num⟩, by simp⟩
    · simp only [timingRest, hev]
      refine ⟨?_, fun hst => ?_⟩
      · constructor <;> · split_ifs <;> norm_num
      · exact absurd (show ("LIVE" : String) = "MISSING" from hst) (by decide)
  · simp only [timingRest, hev]
    obtain ⟨hst, hlo, hhi⟩ := timingFromEvents_spec today events ind hev
    refine ⟨⟨hlo, hhi⟩, fun hmiss => ?_⟩
    rw [hst] at hmiss
    exact absurd hmiss (by decide)

/-- Claim C10: every indicator result produced by the opportunity service has
`score_0_100` in [0, 100] — a manual input is multiplied by 100 and clamped
into [0, 100] even if supplied outside [0, 1] — and every indicator whose
status is MISSING has a score of exactly 50. -/
theorem claim_C10_indicator_ranges :
    (∀ input : Option ℚ, 0 ≤ (get_manual_score input).score_0_100 ∧
      (get_manual_score input).score_0_100 ≤ 100) ∧
    (∀ v : ℚ, (get_manual_score (some v)).score_0_100 =
      roundTo 1 (pyClamp 0 100 (v * 100))) ∧
    (∀ input : Option ℚ, (get_manual_score input).status = "MISSING" →
      (get_manual_score input).score_0_100 = 50) ∧
    (∀ latest : Option LatestTrend, 0 ≤ (compute_search_momentum latest).score_0_100 ∧
      (compute_search_momentum latest).score_0_100 ≤ 100) ∧
    (∀ latest : Option LatestTrend, (compute_search_momentum latest).status = "MISSING" →
      (compute_search_momentum latest).score_0_100 = 50) ∧
    (∀ (ov : Option ℚ) (today : ℤ) (events : List ℤ) (light : Option String),
      0 ≤ (compute_timing_window ov today events light).score_0_100 ∧
      (compute_timing_window ov today events light).score_0_100 ≤ 100) ∧
    (∀ (ov : Option ℚ) (today : ℤ) (events : List ℤ) (light : Option String),
      (compute_timing_window ov today events light).status = "MISSING" →
      (compute_timing_window ov today events light).score_0_100 = 50) := by
  refine ⟨?_, fun v => rfl, ?_, ?_, ?_, ?_, ?_⟩
  · intro input
    rcases input with _ | v
    · exact ⟨by norm_num [get_manual_score], by norm_num [get_manual_score]⟩
    · exact roundClamp_bounds _
  · intro input h
    rcases input with _ | v
    · rfl
    · exact absurd (show ("MANUAL" : String) = "MISSING" from h) (by decide)
  · intro latest
    rcases latest with _ | lt
    · exact ⟨by norm_num [compute_search_momentum], by norm_num [compute_search_momentum]⟩
    · rcases hw : lt.wow_growth with _ | w <;>
        simp only [compute_search_momentum, hw]
      · exact ⟨by norm_num, by norm_num⟩
      · exact roundClamp_bounds _
  · intro latest h
    rcases latest with _ | lt
    · rfl
    · rcases hw : lt.wow_growth with _ | w
      · simp [compute_search_momentum, hw]
      · simp only [compute_search_momentum, hw] at h
        exact absurd h (by decide)
  · intro ov today events light
    rcases ov with _ | v
    · exact (timingRest_spec today events light).1
    · simp only [compute_timing_window]
      split_ifs
      · exact roundClamp_bounds _
      · exact (timingRest_spec today events light).1
  · intro ov today events light
    rcases ov with _ | v
    · exact (timingRest_spec today events light).2
    · simp only [compute_timing_window]
      split_ifs with hv
      · intro h
        exact absurd (show ("MANUAL" : String) = "MISSING" from h) (by decide)
      · exact (timingRest_spec today events light).2

/-- Witness for C10: a missing manual input scores exactly 50, an input of
1.5 (outside [0, 1]) still lands in [0, 100], and an event-less
trend-less timing window is MISSING at 50. -/
theorem claim_C10_indicator_ranges_witness :
    (get_manual_score none).score_0_100 = 50 ∧
    0 ≤ (get_manual_score (some (3/2))).score_0_100 ∧
    (get_manual_score (some (3/2))).score_0_100 ≤ 100 ∧
    (compute_timing_window none 0 [] none).score_0_100 = 50 :=
  ⟨claim_C10_indicator_ranges.2.2.1 none rfl,
   (claim_C10_indicator_ranges.1 (some (3/2))).1,
   (claim_C10_indicator_ranges.1 (some (3/2))).2,
   claim_C10_indicator_ranges.2.2.2.2.2.2 none 0 [] none rfl⟩

/-! ## Claim C7 — confidence penalty and final score -/

/-- The claimed per-key-source penalty contribution: `p_down` when the stored
status is down, `p_warn` when warn, and nothing otherwise — in particular
nothing for a key source never attempted (no health row). -/
def keySourcePenalty (healthRows : List (String × SourceStatus)) (reg : SourceReg) : ℚ :=
  if reg.is_key_source then
    match lookupHealth healthRows reg.source_key with
    | some .down => confidence_key_source_down_penalty
    | some .warn => confidence_key_source_warn_penalty
    | _ => 0
  else 0

lemma srcPenalty_body (healthRows : List (String × SourceStatus)) (acc : ℚ)
    (reg : SourceReg) :
    (if reg.is_key_source then
      match lookupHealth healthRows reg.source_key with
      | none => acc
      | some .down => acc + confidence_key_source_down_penalty
      | some .warn => acc + confidence_key_source_warn_penalty
      | some .ok => acc
    else acc) = acc + keySourcePenalty healthRows reg := by
  unfold keySourcePenalty
  by_cases hk : reg.is_key_source
  · rw [if_pos hk, if_pos hk]
    rcases lookupHealth healthRows reg.source_key with _ | st
    · simp
    · cases st <;> simp
  · rw [if_neg hk, if_neg hk]
    simp

lemma srcPenalty_eq (registries : List SourceReg)
    (healthRows : List (String × SourceStatus)) :
    registries.foldl (fun acc reg =>
      if reg.is_key_source then
        match lookupHealth healthRows reg.source_key with
        | none => acc
        | some .down => acc + confidence_key_source_down_penalty
        | some .warn => acc + confidence_key_source_warn_penalty
        | some .ok => acc
      else acc) 0 = (registries.map (keySourcePenalty healthRows)).sum := by
  suffices h : ∀ init : ℚ, registries.foldl (fun acc reg =>
      if reg.is_key_source then
        match lookupHealth healthRows reg.source_key with
        | none => acc
        | some .down => acc + confidence_key_source_down_penalty
        | some .warn => acc + confidence_key_source_warn_penalty
        | some .ok => acc
      else acc) init = init + (registries.map (keySourcePenalty healthRows)).sum by
    simpa using h 0
  induction registries with
  | nil => intro init; simp
  | cons a t ih =>
    intro init
    rw [List.foldl_cons, srcPenalty_body, List.map_cons, List.sum_cons, ih]
    ring

/-- Counterexample to claim C7: one key source (ok), one stored manual input,
no live datasets. The code stores `int(base · risk_adj · (1 − penalty/100))`
= `int(406/13)` = 31, while the claimed real-valued clamp formula gives
406/13 ≈ 31.23, so the stored score does not equal the claimed expression. -/
theorem claim_C7_counterexample :
    (compute_ip_confidence [⟨"google_trends", true, "high", 1⟩]
        [("google_trends", .ok)] ["social_buzz"] false false false false).confidence_score
      = 31 ∧
    pyClamp 0 100
      ((compute_ip_confidence [⟨"google_trends", true, "high", 1⟩]
          [("google_trends", .ok)] ["social_buzz"] false false false false).base *
        (compute_ip_confidence [⟨"google_trends", true, "high", 1⟩]
          [("google_trends", .ok)] ["social_buzz"] false false false false).risk_adjustment *
        (1 - min ((compute_ip_confidence [⟨"google_trends", true, "high", 1⟩]
          [("google_trends", .ok)] ["social_buzz"] false false false
          false).penalty / 100) (8/10)))
      = 406/13 ∧
    ((31 : ℤ) : ℚ) ≠ 406/13 := by
  have hmiss : missingKeyIndicators ["social_buzz"] false false false = 3 := by decide
  have hlook : lookupHealth [("google_trends", SourceStatus.ok)] "google_trends" =
      some SourceStatus.ok := by decide
  have hfilt : ([("google_trends", SourceStatus.ok)].filter
      (fun r => decide (r.2 = SourceStatus.ok))).length = 1 := by decide
  have hfloor : ⌊(406 / 13 : ℚ)⌋ = 31 := by
    rw [Int.floor_eq_iff]
    norm_num
  refine ⟨?_, ?_, by norm_num⟩
  · simp only [compute_ip_confidence, hmiss, hlook, hfilt, List.foldl_cons,
      List.foldl_nil, List.length_cons, List.length_nil, availabilityFactor,
      confidence_indicator_weight, confidence_source_weight,
      confidence_key_source_down_penalty, confidence_key_source_warn_penalty,
      confidence_key_indicator_missing_penalty, confidence_key_indicator_penalty_cap,
      pyTrunc]
    norm_num
  · simp only [compute_ip_confidence, hmiss, hlook, hfilt, List.foldl_cons,
      List.foldl_nil, List.length_cons, List.length_nil, availabilityFactor,
      confidence_indicator_weight, confidence_source_weight,
      confidence_key_source_down_penalty, confidence_key_source_warn_penalty,
      confidence_key_indicator_missing_penalty, confidence_key_indicator_penalty_cap,
      pyClamp]
    norm_num

/-- Claim C7 as amended: the penalty is the sum over key sources of `p_down`
when the stored status is down and `p_warn` when warn, plus
`min(p_cap, missing_key_indicators · p_miss)`; key sources never attempted
(no health row) add no penalty; and the stored score equals
`max(0, min(100, int(base · risk_adj · (1 − min(0.8, penalty/100)))))` — the
claimed clamp formula with the product truncated toward zero to an integer. -/
theorem claim_C7_amended (registries : List SourceReg)
    (healthRows : List (String × SourceStatus)) (storedInputs : List String)
    (hT hE hY hM : Bool) (r : ConfResult)
    (hr : compute_ip_confidence registries healthRows storedInputs hT hE hY hM = r) :
    r.penalty = (registries.map (keySourcePenalty healthRows)).sum
      + min ((r.missing_key_count : ℚ) * confidence_key_indicator_missing_penalty)
          confidence_key_indicator_penalty_cap ∧
    (∀ reg ∈ registries, lookupHealth healthRows reg.source_key = none →
      keySourcePenalty healthRows reg = 0) ∧
    r.confidence_score =
      max 0 (min 100 (pyTrunc (r.base * r.risk_adjustment *
        (1 - min (r.penalty / 100) (8/10))))) := by
  subst hr
  refine ⟨?_, ?_, rfl⟩
  · simp only [compute_ip_confidence]
    rw [srcPenalty_eq, min_comm]
  · intro reg hreg hnone
    simp [keySourcePenalty, hnone]

/-- Witness for the amended C7 at the counterexample's input: penalty 30
(capped indicator penalty, no key-source penalty since the key source is ok)
and stored score 31. -/
theorem claim_C7_amended_witness :
    (compute_ip_confidence [⟨"google_trends", true, "high", 1⟩]
        [("google_trends", .ok)] ["social_buzz"] false false false false).penalty =
      ([(⟨"google_trends", true, "high", 1⟩ : SourceReg)].map
        (keySourcePenalty [("google_trends", SourceStatus.ok)])).sum
      + min (((compute_ip_confidence [⟨"google_trends", true, "high", 1⟩]
          [("google_trends", .ok)] ["social_buzz"] false false false
          false).missing_key_count : ℚ) * confidence_key_indicator_missing_penalty)
          confidence_key_indicator_penalty_cap :=
  (claim_C7_amended [⟨"google_trends", true, "high", 1⟩] [("google_trends", .ok)]
    ["social_buzz"] false false false false _ rfl).1

/-! ## Claim C1 — breakout percentile window -/

/-- The claim's reading of the breakout percentile, following the spec's
words: the rank of `ma7(d)` within the composite values of the trailing
window of up to 180 days ending at `d` itself, as rank / N × 100; null when
that window has fewer than 7 observations. -/
def specTrailingWindowBreakout (series : List ℚ) (idx : ℕ) : Option ℚ :=
  let window := lastN 180 (series.take (idx + 1))
  if window.length < 7 then none
  else some
    (((window.filter
        (fun v => v ≤ statMean (lastN 7 (series.take (idx + 1))))).length : ℚ)
      / (window.length : ℚ) * 100)

lemma compute_aggregation_breakout (values v6 : List ℚ) (p : Option ℚ) :
    (compute_aggregation values v6 p).breakout_percentile =
      if values.length < 7 then none else (breakoutCalc values v6).map (roundTo 1) := by
  by_cases h : values.length < 7
  · simp [compute_aggregation, h, emptyAgg]
  · simp [compute_aggregation, h]

lemma aggLoop_row_breakout (series v6 : List ℚ) :
    ∀ (idxs : List ℕ) (p : Option ℚ) (row : DailyRow), row ∈ aggLoop series v6 idxs p →
      row.idx ∈ idxs ∧
      row.breakout_percentile =
        if (series.take (row.idx + 1)).length < 7 then none
        else (breakoutCalc (series.take (row.idx + 1)) v6).map (roundTo 1) := by
  intro idxs
  induction idxs with
  | nil =>
    intro p row h
    simp [aggLoop] at h
  | cons idx rest ih =>
    intro p row h
    simp only [aggLoop] at h
    rcases List.mem_cons.mp h with he | ht
    · subst he
      exact ⟨List.mem_cons_self _ _, compute_aggregation_breakout _ _ _⟩
    · obtain ⟨hmem, hbp⟩ := ih _ row ht
      exact ⟨List.mem_cons_of_mem _ hmem, hbp⟩

lemma aggLoop_get? (series v6 : List ℚ) :
    ∀ (idxs : List ℕ) (p : Option ℚ) (k : ℕ),
      ((aggLoop series v6 idxs p).get? k).map (fun r => (r.idx, r.breakout_percentile)) =
        (idxs.get? k).map (fun idx => (idx,
          if (series.take (idx + 1)).length < 7 then none
          else (breakoutCalc (series.take (idx + 1)) v6).map (roundTo 1))) := by
  intro idxs
  induction idxs with
  | nil => intro p k; simp [aggLoop]
  | cons idx rest ih =>
    intro p k
    cases k with
    | zero =>
      simp only [aggLoop, List.get?_cons_zero, Option.map_some']
      rw [compute_aggregation_breakout]
    | succ j =>
      simp only [aggLoop, List.get?_cons_succ]
      exact ih _ j

lemma breakout_eval_ex :
    (if (List.take (7 + 1) ([0, 10, 20, 30, 40, 50, 60, 70, 80, 90] : List ℚ)).length < 7
     then none
     else (breakoutCalc (List.take (7 + 1) ([0, 10, 20, 30, 40, 50, 60, 70, 80, 90] : List ℚ))
        (lastN 180 [0, 10, 20, 30, 40, 50, 60, 70, 80, 90])).map (roundTo 1)) =
      some 50 := by
  have hmean : statMean ([10, 20, 30, 40, 50, 60, 70] : List ℚ) = 40 := by
    norm_num [statMean]
  norm_num [breakoutCalc, lastN, hmean, List.filter_cons, List.filter_nil,
    decide_eq_true_eq, roundTo, roundHalfEven]

/-- Counterexample to claim C1: for the 10-day composite series
0, 10, …, 90, the stored breakout percentile at the 8th date (index 7) is 50
— its `ma7` (= 40) ranks 5th of the 10 values of the *whole* series — while
the claimed trailing window ending at that date (the first 8 values) gives
5/8 × 100 = 62.5. -/
theorem claim_C1_counterexample :
    ((dailyAggregationRows [0, 10, 20, 30, 40, 50, 60, 70, 80, 90]).get? 7).map
        (fun r => (r.idx, r.breakout_percentile)) = some (7, some 50) ∧
    specTrailingWindowBreakout [0, 10, 20, 30, 40, 50, 60, 70, 80, 90] 7 =
      some (125/2) ∧
    (some (50 : ℚ) : Option ℚ) ≠ some (125/2) := by
  refine ⟨?_, ?_, by norm_num⟩
  · rw [dailyAggregationRows, aggLoop_get?]
    rw [show (List.range'
        (([0, 10, 20, 30, 40, 50, 60, 70, 80, 90] : List ℚ).length -
          min ([0, 10, 20, 30, 40, 50, 60, 70, 80, 90] : List ℚ).length 365)
        (min ([0, 10, 20, 30, 40, 50, 60, 70, 80, 90] : List ℚ).length 365)).get? 7 =
        some 7 from by decide]
    rw [Option.map_some']
    rw [breakout_eval_ex]
  · have hmean : statMean ([10, 20, 30, 40, 50, 60, 70] : List ℚ) = 40 := by
      norm_num [statMean]
    simp only [specTrailingWindowBreakout]
    norm_num [lastN, hmean, List.filter_cons, List.filter_nil, decide_eq_true_eq]

/-- Claim C1 as amended: every row stored by the aggregation run (the last
up-to-365 dates of the series) carries, at index `d`, the `≤`-rank of
`ma7(d)` within the last up-to-180 values of the *whole* composite series
(the same window for every date), as rank / N × 100 rounded to one decimal;
it is null when fewer than 7 values exist up to `d`. -/
theorem claim_C1_amended (series : List ℚ) (row : DailyRow)
    (hrow : row ∈ dailyAggregationRows series) :
    row.breakout_percentile =
      if row.idx + 1 < 7 then none
      else some (roundTo 1
        ((((lastN 180 series).filter
            (fun v => v ≤ statMean (lastN 7 (series.take (row.idx + 1))))).length : ℚ)
          / ((lastN 180 series).length : ℚ) * 100)) := by
  obtain ⟨hmem, hbp⟩ := aggLoop_row_breakout series (lastN 180 series) _ none row hrow
  have hidx : row.idx < series.length := by
    have := List.mem_range'_1.mp hmem
    omega
  have hlen : (series.take (row.idx + 1)).length = row.idx + 1 := by
    rw [List.length_take]
    omega
  rw [hbp, hlen]
  by_cases h7 : row.idx + 1 < 7
  · rw [if_pos h7, if_pos h7]
  · rw [if_neg h7, if_neg h7]
    have h6 : 7 ≤ (lastN 180 series).length := by
      rw [lastN_length]
      omega
    simp only [breakoutCalc, if_pos h6, Option.map_some']

/-- Witness for the amended C1 at the counterexample series: the row at
index 7 is stored with breakout percentile 50. -/
theorem claim_C1_amended_witness :
    ((dailyAggregationRows [0, 10, 20, 30, 40, 50, 60, 70, 80, 90]).get? 7).map
      (fun r => r.breakout_percentile) = some (some 50) := by
  have h := aggLoop_get? [0, 10, 20, 30, 40, 50, 60, 70, 80, 90]
    (lastN 180 [0, 10, 20, 30, 40, 50, 60, 70, 80, 90])
    (List.range'
      (([0, 10, 20, 30, 40, 50, 60, 70, 80, 90] : List ℚ).length -
        min ([0, 10, 20, 30, 40, 50, 60, 70, 80, 90] : List ℚ).length 365)
      (min ([0, 10, 20, 30, 40, 50, 60, 70, 80, 90] : List ℚ).length 365)) none 7
  rw [show aggLoop [0, 10, 20, 30, 40, 50, 60, 70, 80, 90]
      (lastN 180 [0, 10, 20, 30, 40, 50, 60, 70, 80, 90])
      (List.range'
        (([0, 10, 20, 30, 40, 50, 60, 70, 80, 90] : List ℚ).length -
          min ([0, 10, 20, 30, 40, 50, 60, 70, 80, 90] : List ℚ).length 365)
        (min ([0, 10, 20, 30, 40, 50, 60, 70, 80, 90] : List ℚ).length 365)) none =
      dailyAggregationRows [0, 10, 20, 30, 40, 50, 60, 70, 80, 90] from rfl] at h
  rw [show (List.range'
      (([0, 10, 20, 30, 40, 50, 60, 70, 80, 90] : List ℚ).length -
        min ([0, 10, 20, 30, 40, 50, 60, 70, 80, 90] : List ℚ).length 365)
      (min ([0, 10, 20, 30, 40, 50, 60, 70, 80, 90] : List ℚ).length 365)).get? 7 =
      some 7 from by decide] at h
  rcases hrow : (dailyAggregationRows [0, 10, 20, 30, 40, 50, 60, 70, 80, 90]).get? 7
    with _ | row
  · rw [hrow] at h
    simp at h
  · rw [hrow] at h
    simp only [Option.map_some', Option.some.injEq, Prod.mk.injEq] at h
    obtain ⟨hidx, _⟩ := h
    have hmem : row ∈ dailyAggregationRows [0, 10, 20, 30, 40, 50, 60, 70, 80, 90] :=
      List.get?_mem hrow
    have hb := claim_C1_amended [0, 10, 20, 30, 40, 50, 60, 70, 80, 90] row hmem
    rw [hidx] at hb
    rw [Option.map_some', Option.some.injEq, hb, if_neg (by omega)]
    have hmean : statMean ([10, 20, 30, 40, 50, 60, 70] : List ℚ) = 40 := by
      norm_num [statMean]
    norm_num [lastN, hmean, List.filter_cons, List.filter_nil, decide_eq_true_eq,
      roundTo, roundHalfEven]
